import Mathlib

/-!
Verification development for the chat-network repository: the message
protocol artifacts (transit, acknowledgment and error-reply builders),
the configuration envelope, the mutable JSON array module, the
Fisher-Yates shuffle, and the ring assembler described in the design
notes of the server. Each definition is a shallow embedding of the
corresponding TypeScript function or of the design-note pseudocode.
-/

namespace Tchat

/-- Phantom category tags distinguishing identifier namespaces. -/
inductive Sorte where
  | sommet
  | message
deriving DecidableEq

/-- An identifier: an opaque string value tagged by a phantom category,
mirroring the TypeScript type Identifiant with its sorte parameter. -/
structure Identifiant (s : Sorte) where
  val : String
deriving DecidableEq

/-- French date format. External to the core (bibliotheque/types/date);
modelled as an opaque value. -/
structure FormatDateFr where
  rep : Nat
deriving DecidableEq

/-- The unit marker type used by the envelope formats. -/
inductive Unite where
  | ZERO
deriving DecidableEq

/-- Enumeration of the message types of the chat protocol, mirroring
the TypeScript enum TypeMessageTchat. -/
inductive TypeMessageTchat where
  | COM
  | TRANSIT
  | AR
  | ERREUR_CONNEXION
  | ERREUR_EMET
  | ERREUR_DEST
  | ERREUR_TYPE
  | INTERDICTION
deriving DecidableEq

/-- JSON format of a chat message, mirroring FormatMessageTchat:
identifier, sender identifier, receiver identifier, type, content, date. -/
structure FormatMessageTchat where
  ID : Identifiant Sorte.message
  ID_emetteur : Identifiant Sorte.sommet
  ID_destinataire : Identifiant Sorte.sommet
  type : TypeMessageTchat
  contenu : String
  date : FormatDateFr
deriving DecidableEq

/-- The transit derivation of MessageTchatParEnveloppe: a new message of
the same structure except that the type becomes TRANSIT. -/
def transit (m : FormatMessageTchat) : FormatMessageTchat :=
  { ID := m.ID
    ID_emetteur := m.ID_emetteur
    ID_destinataire := m.ID_destinataire
    type := TypeMessageTchat.TRANSIT
    contenu := m.contenu
    date := m.date }

/-- The acknowledgment derivation of MessageTchatParEnveloppe: a new
message of the same structure except that the type becomes AR. -/
def avecAccuseReception (m : FormatMessageTchat) : FormatMessageTchat :=
  { ID := m.ID
    ID_emetteur := m.ID_emetteur
    ID_destinataire := m.ID_destinataire
    type := TypeMessageTchat.AR
    contenu := m.contenu
    date := m.date }

/-- Factory of an error reply returned to the sender: identifier, sender,
receiver and date of the original message, with the type set to the given
error code and the content set to the given error text. -/
def messageRetourErreur (original : FormatMessageTchat)
    (codeErreur : TypeMessageTchat) (messageErreur : String) :
    FormatMessageTchat :=
  { ID := original.ID
    ID_emetteur := original.ID_emetteur
    ID_destinataire := original.ID_destinataire
    type := codeErreur
    contenu := messageErreur
    date := original.date }

/-- Factory of a connection-error message. The source calls the clock
(dateMaintenant) for the date; the clock result is passed here as the
explicit argument maintenant. Sender and receiver are both the given
vertex identifier. -/
def messageErreurConnexion (id : Identifiant Sorte.message)
    (idEmetteur : Identifiant Sorte.sommet) (messageErreur : String)
    (maintenant : FormatDateFr) : FormatMessageTchat :=
  { ID := id
    ID_emetteur := idEmetteur
    ID_destinataire := idEmetteur
    type := TypeMessageTchat.ERREUR_CONNEXION
    contenu := messageErreur
    date := maintenant }

/-- JSON format of a chat vertex: identifier and pseudo. -/
structure FormatSommetTchat where
  ID : Identifiant Sorte.sommet
  pseudo : String
deriving DecidableEq

/-- Identification table keyed by identifier values. External container
(bibliotheque/types/tableIdentification); modelled as an association
list, which the configuration code only copies around. -/
structure FormatTableIdentification (V : Type) where
  identification : List (String × V)
deriving DecidableEq

/-- JSON format of a chat node, with the two fields the chat code builds
and reads: the centre vertex and the table of neighbour vertices. -/
structure FormatNoeudTchat where
  centre : FormatSommetTchat
  voisins : FormatTableIdentification FormatSommetTchat
deriving DecidableEq

/-- JSON format of an initial chat configuration: marker, centre,
neighbours and date, mirroring FormatConfigurationTchat. -/
structure FormatConfigurationTchat where
  configurationInitiale : Unite
  centre : FormatSommetTchat
  voisins : FormatTableIdentification FormatSommetTchat
  date : FormatDateFr
deriving DecidableEq

/-- Factory of an initial configuration from a node and a date, copying
the centre and neighbours of the node and attaching the date. -/
def configurationDeNoeudTchat (n : FormatNoeudTchat) (date : FormatDateFr) :
    FormatConfigurationTchat :=
  { configurationInitiale := Unite.ZERO
    centre := n.centre
    voisins := n.voisins
    date := date }

/-- The node extracted from a configuration, as in the method noeud of
ConfigurationTchatParEnveloppe: the centre and neighbours of the
configuration. -/
def noeud (c : FormatConfigurationTchat) : FormatNoeudTchat :=
  { centre := c.centre, voisins := c.voisins }

/-- Mutable JSON array format FormatTableauMutable: size, underlying
array, mutability marker. The documented invariant is that taille equals
tableau.length. The JavaScript number taille is modelled as Int so that
increments and decrements are exact. -/
structure FormatTableauMutable (T : Type) where
  taille : Int
  tableau : List T
  mutable : Unite
deriving DecidableEq

/-- Immutable JSON array format FormatTableau: size and underlying
array, with the invariant that taille equals tableau.length. -/
structure FormatTableau (T : Type) where
  taille : Int
  tableau : List T
deriving DecidableEq

/-- ajouterEnFin of ModuleTableauEnJSON: appends an element at the end
of the array and increments the size. -/
def ajouterEnFin {T : Type} (t : FormatTableauMutable T) (x : T) :
    FormatTableauMutable T :=
  { t with taille := t.taille + 1, tableau := t.tableau ++ [x] }

/-- The text of the exception raised by retirerEnFin on an empty array. -/
def messageErreurRetirerEnFin : String :=
  "[Exception : retirerEnFin() non défini.]"

/-- retirerEnFin of ModuleTableauEnJSON: pops the last element of the
array; when the pop yields nothing the function throws, modelled as an
Except error, and the array is left as it was; otherwise the size is
decremented and the removed element returned. -/
def retirerEnFin {T : Type} (t : FormatTableauMutable T) :
    Except String T × FormatTableauMutable T :=
  match t.tableau.getLast? with
  | none => (Except.error messageErreurRetirerEnFin, t)
  | some r =>
    (Except.ok r,
      { t with taille := t.taille - 1, tableau := t.tableau.dropLast })

/-- One exchange step of the Fisher-Yates loop: the element at position
i receives the old element at position j and conversely. Out-of-range
positions leave the list unchanged; inside melange both positions are in
range. -/
def echange {T : Type} (l : List T) (i j : Nat) : List T :=
  match l[i]?, l[j]? with
  | some a, some b => (l.set i b).set j a
  | _, _ => l

/-- The loop of melange: for i from n - 1 down to 1, exchange the
element at position i with the element at the position drawn by the
random-integer generator, here passed as the oracle rand. -/
def boucleMelange {T : Type} (rand : Nat → Nat) : List T → Nat → List T
  | t, 0 => t
  | t, i + 1 => boucleMelange rand (echange t (i + 1) (rand (i + 1))) i

/-- melange of FabriqueTableauEnJSON: copies the input array and shuffles
the copy with the Fisher-Yates algorithm, the call entierAleatoire(i)
being modelled by the oracle rand applied to i. -/
def melange {T : Type} (rand : Nat → Nat) (tab : List T) : FormatTableau T :=
  { taille := tab.length
    tableau := boucleMelange rand tab (tab.length - 1) }

/-- Binary word of a natural number, least significant bit first, with
explicit fuel so that the recursion is structural. -/
def binAux : Nat → Nat → List Bool
  | _, 0 => []
  | 0, _ + 1 => []
  | fuel + 1, n + 1 => decide ((n + 1) % 2 = 1) :: binAux fuel ((n + 1) / 2)

/-- The naming function NOM of the design notes: the binary
representation of a natural number. -/
def binaire (n : Nat) : List Bool := binAux n n

/-- A user of the assembled scenario: the domain index, the local index
inside the domain, and the name. -/
structure Utilisateur where
  idDom : Nat
  idUtil : Nat
  nom : List Bool
deriving DecidableEq

/-- User creation of the design notes: the user of domain i and local
index j carries the name NOM(j) and an identifier that is a function of
i and j, here the pair of indices itself. -/
def utilisateur (i j : Nat) : Utilisateur := ⟨i, j, binaire j⟩

/-- Population of one domain: the NU(i) users of domain i, in the order
of their local indices, as inserted into popAConnecter and into the
enumeration EPop by the assembly loop of the design notes. -/
def popDomaine (NU : Nat → Nat) (i : Nat) : List Utilisateur :=
  (List.range (NU i)).map (utilisateur i)

/-- Complete population assembled by the design-notes algorithm: for
each domain i below ND, the NU(i) users of that domain. -/
def population (ND : Nat) (NU : Nat → Nat) : List Utilisateur :=
  (List.range ND).flatMap (popDomaine NU)

/-- An instruction of the scenario: sender, receiver, content. -/
structure Consigne where
  emetteur : Utilisateur
  destinataire : Utilisateur
  contenu : String
deriving DecidableEq

/-- Instruction generation of the design notes for sender position
(i, j): sender EPop(ED(i))(j), receiver EPop(ED(k))((i + j) mod NU(k))
with k = (i + ND div 2) mod ND, and a content that is a function of i
and j, passed here as the parameter contenu. -/
def consigne (ND : Nat) (NU : Nat → Nat) (contenu : Nat → Nat → String)
    (i j : Nat) : Consigne :=
  let k := (i + ND / 2) % ND
  { emetteur := utilisateur i j
    destinataire := utilisateur k ((i + j) % NU k)
    contenu := contenu i j }

/-- The full instruction table of the design-notes algorithm: one
instruction per sender position (i, j) with i below ND and j below
NU(i), in generation order. -/
def consignes (ND : Nat) (NU : Nat → Nat) (contenu : Nat → Nat → String) :
    List Consigne :=
  (List.range ND).flatMap
    (fun i => (List.range (NU i)).map (consigne ND NU contenu i))

/-- The key under which an instruction is stored in the instruction
table: the (domain, user) pair of its sender. -/
def cleConsigne (c : Consigne) : Nat × Nat :=
  (c.emetteur.idDom, c.emetteur.idUtil)

/-- The (domain, user) key of a user. -/
def cleUtilisateur (u : Utilisateur) : Nat × Nat := (u.idDom, u.idUtil)

/-- A per-domain user-count function given by a finite list, as in the
concrete scenarios of the spec. -/
def nuDeListe (nu : List Nat) : Nat → Nat := fun i => nu.getD i 0

/-- A trivial content function for concrete scenarios. -/
def contenuTest : Nat → Nat → String := fun _ _ => ""

end Tchat

namespace Tchat

/-- C1: for every chat message m, transit m and avecAccuseReception m
each return a new message whose identifier, sender, receiver, content and
date equal those of m and whose type alone changes (to TRANSIT,
respectively AR); both derivations are pure, and applying each twice is
idempotent (hence in particular idempotent on the non-type fields). -/
theorem transit_avecAccuseReception_structure (m : FormatMessageTchat) :
    ((transit m).ID = m.ID ∧ (transit m).ID_emetteur = m.ID_emetteur ∧
      (transit m).ID_destinataire = m.ID_destinataire ∧
      (transit m).contenu = m.contenu ∧ (transit m).date = m.date ∧
      (transit m).type = TypeMessageTchat.TRANSIT) ∧
    ((avecAccuseReception m).ID = m.ID ∧
      (avecAccuseReception m).ID_emetteur = m.ID_emetteur ∧
      (avecAccuseReception m).ID_destinataire = m.ID_destinataire ∧
      (avecAccuseReception m).contenu = m.contenu ∧
      (avecAccuseReception m).date = m.date ∧
      (avecAccuseReception m).type = TypeMessageTchat.AR) ∧
    transit (transit m) = transit m ∧
    avecAccuseReception (avecAccuseReception m) = avecAccuseReception m := by
  refine ⟨⟨rfl, rfl, rfl, rfl, rfl, rfl⟩, ⟨rfl, rfl, rfl, rfl, rfl, rfl⟩, rfl, rfl⟩

/-- C2: for every chat message m, every error code t and every error
text s, messageRetourErreur m t s preserves the identifier, sender,
receiver and date of m and changes only the type (to t) and the content
(to s). -/
theorem messageRetourErreur_structure (m : FormatMessageTchat)
    (t : TypeMessageTchat) (s : String) :
    (messageRetourErreur m t s).ID = m.ID ∧
    (messageRetourErreur m t s).ID_emetteur = m.ID_emetteur ∧
    (messageRetourErreur m t s).ID_destinataire = m.ID_destinataire ∧
    (messageRetourErreur m t s).date = m.date ∧
    (messageRetourErreur m t s).type = t ∧
    (messageRetourErreur m t s).contenu = s := by
  exact ⟨rfl, rfl, rfl, rfl, rfl, rfl⟩

/-- C7: for every message identifier, every vertex identifier e, every
error text and every clock value, messageErreurConnexion builds a message
of type ERREUR_CONNEXION that is self-addressed: sender and receiver are
both e. -/
theorem messageErreurConnexion_autoAdresse (id : Identifiant Sorte.message)
    (e : Identifiant Sorte.sommet) (s : String) (d : FormatDateFr) :
    (messageErreurConnexion id e s d).type = TypeMessageTchat.ERREUR_CONNEXION ∧
    (messageErreurConnexion id e s d).ID_emetteur = e ∧
    (messageErreurConnexion id e s d).ID_destinataire = e := by
  exact ⟨rfl, rfl, rfl⟩

/-- C8: for every node n and every date d, configurationDeNoeudTchat n d
copies the centre and neighbours of n unchanged and attaches the date d,
with no validation of n; extracting the node back with noeud yields
exactly n (round trip on centre and neighbours). -/
theorem configurationDeNoeudTchat_allerRetour (n : FormatNoeudTchat)
    (d : FormatDateFr) :
    (configurationDeNoeudTchat n d).centre = n.centre ∧
    (configurationDeNoeudTchat n d).voisins = n.voisins ∧
    (configurationDeNoeudTchat n d).date = d ∧
    noeud (configurationDeNoeudTchat n d) = n := by
  exact ⟨rfl, rfl, rfl, rfl⟩

end Tchat

namespace Tchat

/-- Helper: prepending the old element at position m while writing c at
position m is a permutation of prepending c to the original list. -/
theorem perm_cons_set {T : Type} :
    ∀ (xs : List T) (m : Nat) (b c : T), xs[m]? = some b →
      (b :: xs.set m c).Perm (c :: xs)
  | [], m, b, c, h => by simp at h
  | y :: ys, 0, b, c, h => by
    rw [List.getElem?_cons_zero, Option.some_inj] at h
    subst h
    rw [List.set_cons_zero]
    exact List.Perm.swap c y ys
  | y :: ys, m + 1, b, c, h => by
    rw [List.getElem?_cons_succ] at h
    rw [List.set_cons_succ]
    exact ((List.Perm.swap y b _).trans
      ((perm_cons_set ys m b c h).cons y)).trans (List.Perm.swap c y ys)

/-- Helper: writing the element of position j at position i and the old
element of position i at position j permutes the list. -/
theorem perm_set_set {T : Type} :
    ∀ (l : List T) (i j : Nat) (a b : T),
      l[i]? = some a → l[j]? = some b → ((l.set i b).set j a).Perm l
  | [], i, j, a, b, hi, _ => by simp at hi
  | x :: xs, 0, 0, a, b, hi, hj => by
    rw [List.getElem?_cons_zero, Option.some_inj] at hi hj
    subst hi; subst hj
    rw [List.set_cons_zero, List.set_cons_zero]
  | x :: xs, 0, m + 1, a, b, hi, hj => by
    rw [List.getElem?_cons_zero, Option.some_inj] at hi
    rw [List.getElem?_cons_succ] at hj
    subst hi
    rw [List.set_cons_zero, List.set_cons_succ]
    exact perm_cons_set xs m b x hj
  | x :: xs, m + 1, 0, a, b, hi, hj => by
    rw [List.getElem?_cons_zero, Option.some_inj] at hj
    rw [List.getElem?_cons_succ] at hi
    subst hj
    rw [List.set_cons_succ, List.set_cons_zero]
    exact perm_cons_set xs m a x hi
  | x :: xs, m + 1, k + 1, a, b, hi, hj => by
    rw [List.getElem?_cons_succ] at hi hj
    rw [List.set_cons_succ, List.set_cons_succ]
    exact (perm_set_set xs m k a b hi hj).cons x

/-- Helper: one exchange step permutes the list. -/
theorem perm_echange {T : Type} (l : List T) (i j : Nat) :
    (echange l i j).Perm l := by
  unfold echange
  split
  · rename_i a b hi hj
    exact perm_set_set l i j a b hi hj
  · exact List.Perm.refl l

/-- Helper: the whole Fisher-Yates loop permutes the list, whatever the
oracle answers. -/
theorem perm_boucleMelange {T : Type} (rand : Nat → Nat) :
    ∀ (i : Nat) (t : List T), (boucleMelange rand t i).Perm t
  | 0, t => List.Perm.refl t
  | i + 1, t =>
    (perm_boucleMelange rand i (echange t (i + 1) (rand (i + 1)))).trans
      (perm_echange t (i + 1) (rand (i + 1)))

/-- C10: for every input array and every behaviour of the random-integer
generator, modelled as an oracle answering some j with j at most i for
each i, melange returns a new array whose recorded size equals the input
length and whose elements are a permutation of the input elements; the
input list itself is untouched, melange being a pure function of it. -/
theorem melange_permutation {T : Type} (rand : Nat → Nat) (tab : List T)
    (h : ∀ i, rand i ≤ i) :
    (melange rand tab).taille = (tab.length : Int) ∧
    (melange rand tab).tableau.Perm tab ∧
    (melange rand tab).tableau.length = tab.length := by
  refine ⟨rfl, perm_boucleMelange rand (tab.length - 1) tab, ?_⟩
  exact (perm_boucleMelange rand (tab.length - 1) tab).length_eq

/-- Witness for C10 at the oracle always answering 0 and the input
[1, 2, 3]. -/
theorem melange_permutation_temoin :
    (melange (fun _ => 0) [1, 2, 3]).taille = (([1, 2, 3] : List Nat).length : Int) ∧
    (melange (fun _ => 0) [1, 2, 3]).tableau.Perm [1, 2, 3] ∧
    (melange (fun _ => 0) [1, 2, 3]).tableau.length = ([1, 2, 3] : List Nat).length :=
  melange_permutation (fun _ => 0) [1, 2, 3] (fun i => Nat.zero_le i)

/-- C9: retirerEnFin fails exactly on an array with no elements - it
then returns the error and the untouched array - and on an array ending
with r it returns r together with the array shortened by one and its
size decremented; consequently ajouterEnFin followed by retirerEnFin
returns the added element and restores the array exactly. -/
theorem retirerEnFin_specification {T : Type} (t : FormatTableauMutable T)
    (x : T) :
    ((retirerEnFin t).1 = Except.error messageErreurRetirerEnFin ↔
      t.tableau = []) ∧
    (t.tableau = [] →
      retirerEnFin t = (Except.error messageErreurRetirerEnFin, t)) ∧
    (∀ l r, t.tableau = l ++ [r] →
      retirerEnFin t =
        (Except.ok r,
          { taille := t.taille - 1, tableau := l, mutable := t.mutable })) ∧
    retirerEnFin (ajouterEnFin t x) = (Except.ok x, t) := by
  obtain ⟨ta, tab, mu⟩ := t
  refine ⟨?_, ?_, ?_, ?_⟩
  · rcases List.eq_nil_or_concat tab with h | ⟨l, r, h⟩ <;> subst h
    · simp [retirerEnFin]
    · simp [retirerEnFin, List.getLast?_concat]
  · intro h
    subst h
    rfl
  · intro l r h
    subst h
    simp [retirerEnFin, List.getLast?_concat, List.dropLast_concat]
  · show retirerEnFin ⟨ta + 1, tab ++ [x], mu⟩ = _
    simp [retirerEnFin, List.getLast?_concat, List.dropLast_concat]

/-- Witness for C9: popping after pushing 5 onto a two-element array
returns 5 and the original array, and popping the empty array returns
the error and the untouched empty array. -/
theorem retirerEnFin_specification_temoin :
    retirerEnFin (ajouterEnFin
        (⟨2, [7, 9], Unite.ZERO⟩ : FormatTableauMutable Nat) 5) =
      (Except.ok 5, (⟨2, [7, 9], Unite.ZERO⟩ : FormatTableauMutable Nat)) ∧
    retirerEnFin (⟨0, [], Unite.ZERO⟩ : FormatTableauMutable Nat) =
      (Except.error messageErreurRetirerEnFin,
        (⟨0, [], Unite.ZERO⟩ : FormatTableauMutable Nat)) :=
  ⟨(retirerEnFin_specification ⟨2, [7, 9], Unite.ZERO⟩ 5).2.2.2,
    (retirerEnFin_specification (⟨0, [], Unite.ZERO⟩ : FormatTableauMutable Nat)
      0).2.1 rfl⟩

end Tchat

namespace Tchat

/-- Helper: the sender keys of the instruction table are exactly the
index pairs (i, j) with i below ND and j below NU(i). -/
theorem cles_consignes (ND : Nat) (NU : Nat → Nat) (c : Nat → Nat → String) :
    (consignes ND NU c).map cleConsigne =
      (List.range ND).flatMap
        (fun i => (List.range (NU i)).map (fun j => (i, j))) := by
  simp only [consignes, List.map_flatMap, List.map_map]
  refine congrArg _ ?_
  funext i
  refine congrArg (fun f => List.map f (List.range (NU i))) ?_
  funext j
  rfl

/-- Helper: the keys of the population are exactly the index pairs
(i, j) with i below ND and j below NU(i). -/
theorem cles_population (ND : Nat) (NU : Nat → Nat) :
    (population ND NU).map cleUtilisateur =
      (List.range ND).flatMap
        (fun i => (List.range (NU i)).map (fun j => (i, j))) := by
  simp only [population, popDomaine, List.map_flatMap, List.map_map]
  refine congrArg _ ?_
  funext i
  refine congrArg (fun f => List.map f (List.range (NU i))) ?_
  funext j
  rfl

/-- Helper: the assembled population has one user per (domain, local
index) position, hence the sum of the per-domain counts. -/
theorem longueur_population (ND : Nat) (NU : Nat → Nat) :
    (population ND NU).length = ((List.range ND).map NU).sum := by
  simp only [population, List.length_flatMap]
  refine congrArg List.sum (congrArg (fun f => List.map f (List.range ND)) ?_)
  funext i
  simp [popDomaine]

/-- Helper: the instruction table has one instruction per (domain, local
index) position, hence the sum of the per-domain counts. -/
theorem longueur_consignes (ND : Nat) (NU : Nat → Nat)
    (c : Nat → Nat → String) :
    (consignes ND NU c).length = ((List.range ND).map NU).sum := by
  simp only [consignes, List.length_flatMap]
  refine congrArg List.sum (congrArg (fun f => List.map f (List.range ND)) ?_)
  funext i
  simp

/-- Helper: no two instructions share a (domain, user) sender key. -/
theorem nodup_cles (ND : Nat) (NU : Nat → Nat) (c : Nat → Nat → String) :
    ((consignes ND NU c).map cleConsigne).Nodup := by
  rw [cles_consignes]
  refine List.nodup_flatMap.2 ⟨?_, ?_⟩
  · intro i _
    exact (List.nodup_range _).map (fun a b hab => congrArg Prod.snd hab)
  · refine (List.pairwise_lt_range _).imp ?_
    intro i i' hlt p hp hp'
    rw [List.mem_map] at hp hp'
    obtain ⟨j, _, rfl⟩ := hp
    obtain ⟨j', _, h⟩ := hp'
    exact absurd (congrArg Prod.fst h).symm (Nat.ne_of_lt hlt)

/-- C3: for every domain count at least 2 and every all-positive
per-domain user-count function, the assembler produces exactly the sum
of the counts as users and as instructions, one instruction per user -
the sender keys of the instructions are in bijection with the user keys
of the population - and no two instructions share a (domain, user) key. -/
theorem assemblage_comptes (ND : Nat) (NU : Nat → Nat)
    (c : Nat → Nat → String) (h2 : 2 ≤ ND)
    (hpos : ∀ i, i < ND → 0 < NU i) :
    (population ND NU).length = ((List.range ND).map NU).sum ∧
    (consignes ND NU c).length = ((List.range ND).map NU).sum ∧
    ((consignes ND NU c).map cleConsigne).Nodup ∧
    (consignes ND NU c).map cleConsigne =
      (population ND NU).map cleUtilisateur :=
  ⟨longueur_population ND NU, longueur_consignes ND NU c, nodup_cles ND NU c,
    (cles_consignes ND NU c).trans (cles_population ND NU).symm⟩

/-- Witness for C3 at three domains with two users each. -/
theorem assemblage_comptes_temoin :
    (population 3 (fun _ => 2)).length =
      ((List.range 3).map (fun _ => 2)).sum ∧
    ((consignes 3 (fun _ => 2) contenuTest).map cleConsigne).Nodup :=
  ⟨(assemblage_comptes 3 (fun _ => 2) contenuTest (by decide)
      (fun _ _ => Nat.zero_lt_two)).1,
    (assemblage_comptes 3 (fun _ => 2) contenuTest (by decide)
      (fun _ _ => Nat.zero_lt_two)).2.2.1⟩

/-- C4: for every domain count at least 2 and every all-positive
per-domain user-count function, every generated instruction comes from a
sender position (i, j) and addresses as receiver the user of domain
k = (i + ND div 2) mod ND with local index (i + j) mod NU(k); that
receiver belongs to the population assembled for domain k, hence to the
whole population. -/
theorem consignes_destinataires (ND : Nat) (NU : Nat → Nat)
    (c : Nat → Nat → String) (h2 : 2 ≤ ND)
    (hpos : ∀ i, i < ND → 0 < NU i) :
    ∀ cs ∈ consignes ND NU c, ∃ i j, i < ND ∧ j < NU i ∧
      cs = consigne ND NU c i j ∧
      cs.destinataire =
        utilisateur ((i + ND / 2) % ND) ((i + j) % NU ((i + ND / 2) % ND)) ∧
      cs.destinataire ∈ popDomaine NU ((i + ND / 2) % ND) ∧
      cs.destinataire ∈ population ND NU := by
  intro cs hcs
  rw [consignes, List.mem_flatMap] at hcs
  obtain ⟨i, hi, hcs⟩ := hcs
  rw [List.mem_map] at hcs
  obtain ⟨j, hj, rfl⟩ := hcs
  rw [List.mem_range] at hi hj
  have hND : 0 < ND := by omega
  have hkND : (i + ND / 2) % ND < ND := Nat.mod_lt _ hND
  have hm : (i + j) % NU ((i + ND / 2) % ND) < NU ((i + ND / 2) % ND) :=
    Nat.mod_lt _ (hpos _ hkND)
  refine ⟨i, j, hi, hj, rfl, rfl, ?_, ?_⟩
  · rw [popDomaine, List.mem_map]
    exact ⟨(i + j) % NU ((i + ND / 2) % ND), List.mem_range.2 hm, rfl⟩
  · rw [population, List.mem_flatMap]
    refine ⟨(i + ND / 2) % ND, List.mem_range.2 hkND, ?_⟩
    rw [popDomaine, List.mem_map]
    exact ⟨(i + j) % NU ((i + ND / 2) % ND), List.mem_range.2 hm, rfl⟩

/-- Witness for C4: in the four-domain one-user scenario the receiver of
the instruction of sender position (0, 0) exists in the population. -/
theorem consignes_destinataires_temoin :
    (consigne 4 (fun _ => 1) contenuTest 0 0).destinataire ∈
      population 4 (fun _ => 1) := by
  obtain ⟨i, j, -, -, -, -, -, h⟩ :=
    consignes_destinataires 4 (fun _ => 1) contenuTest (by decide)
      (fun _ _ => Nat.one_pos) (consigne 4 (fun _ => 1) contenuTest 0 0)
      (by decide)
  exact h

/-- C5: with five domains and user counts [2, 1, 1, 1, 1], the ring
offset is the truncating division 5 div 2 = 2 and both users of domain 0
receive the single user of domain 2 as receiver, the receiver indices
(0 + 0) mod 1 and (0 + 1) mod 1 both being 0: the collision occurs. -/
theorem collision_nd5 :
    (5 : Nat) / 2 = 2 ∧
    (consigne 5 (nuDeListe [2, 1, 1, 1, 1]) contenuTest 0 0).destinataire =
      utilisateur 2 ((0 + 0) % 1) ∧
    (consigne 5 (nuDeListe [2, 1, 1, 1, 1]) contenuTest 0 1).destinataire =
      utilisateur 2 ((0 + 1) % 1) ∧
    ((consignes 5 (nuDeListe [2, 1, 1, 1, 1]) contenuTest).filter
        (fun cs => cs.emetteur.idDom == 0)).map (fun cs => cs.destinataire) =
      [utilisateur 2 0, utilisateur 2 0] := by
  decide

/-- C6: with four domains of one user each, the assembler produces four
users and four instructions, the (sender domain, receiver domain) pairs
are exactly (0, 2), (1, 3), (2, 0), (3, 1), and the user of domain 0 is
paired with the user of domain (0 + 2) mod 4 = 2 at receiver index
(0 + 0) mod 1 = 0. -/
theorem appariement_nd4 :
    (population 4 (nuDeListe [1, 1, 1, 1])).length = 4 ∧
    (consignes 4 (nuDeListe [1, 1, 1, 1]) contenuTest).length = 4 ∧
    (consignes 4 (nuDeListe [1, 1, 1, 1]) contenuTest).map
        (fun cs => (cs.emetteur.idDom, cs.destinataire.idDom)) =
      [(0, 2), (1, 3), (2, 0), (3, 1)] ∧
    (consigne 4 (nuDeListe [1, 1, 1, 1]) contenuTest 0 0).destinataire =
      utilisateur ((0 + 2) % 4) ((0 + 0) % 1) := by
  decide

end Tchat
